import Mathlib

/-!
Verification of the scripting bridge of `macos-contacts-mcp` (src/index.ts).

Strings are modelled as `List Char` (`Str`).  The external `osascript`
executor (`executeAppleScript`) is modelled as an oracle
`Exec := Str → Option Str` giving the trimmed stdout of a successful run
(`some out`) or a thrown execution failure (`none`).  Operations that issue
several scripts are embedded in state-passing style and additionally return
the list of scripts handed to the executor, in order, which models the
sequence of `executeAppleScript` calls made by the TypeScript code.
-/

abbrev Str := List Char

def S (s : String) : Str := s.data

/-! ## JavaScript string primitives used by the source -/

/-- JavaScript `str.replace(/c/g, r)` for a single-character pattern `c`. -/
def replaceChar (c : Char) (r : Str) : Str → Str
  | [] => []
  | x :: xs => (if x = c then r else [x]) ++ replaceChar c r xs

/-- `escapeForAppleScript` (src/index.ts:258-267): the five global
replacements applied in source order: backslash, double quote, newline,
carriage return, tab. -/
def escapeForAppleScript (s : Str) : Str :=
  replaceChar '\t' (S "\\t")
    (replaceChar '\r' (S "\\r")
      (replaceChar '\n' (S "\\n")
        (replaceChar '"' (S "\\\"")
          (replaceChar '\\' (S "\\\\") s))))

/-- Per-character escaping: the net effect of the ordered substitutions on
one input character. -/
def escChar (x : Char) : Str :=
  if x = '\\' then S "\\\\"
  else if x = '"' then S "\\\""
  else if x = '\n' then S "\\n"
  else if x = '\r' then S "\\r"
  else if x = '\t' then S "\\t"
  else [x]

/-- JavaScript `str.split(sep)` (non-empty `sep`), fuel-indexed so that the
definition is structural; `jsSplit` supplies enough fuel. -/
def jsSplitGo (sep : Str) : Nat → Str → Str → List Str
  | 0, acc, _ => [acc.reverse]
  | _ + 1, acc, [] => [acc.reverse]
  | fuel + 1, acc, x :: xs =>
    if sep.isPrefixOf (x :: xs) then
      acc.reverse :: jsSplitGo sep fuel [] (xs.drop (sep.length - 1))
    else
      jsSplitGo sep fuel (x :: acc) xs

def jsSplit (sep s : Str) : List Str := jsSplitGo sep s.length [] s

/-- JavaScript `Array.prototype.join(sep)`. -/
def jsJoin (sep : Str) : List Str → Str
  | [] => []
  | [x] => x
  | x :: y :: rest => x ++ sep ++ jsJoin sep (y :: rest)

def jsWhitespace (c : Char) : Bool :=
  c = ' ' || c = '\t' || c = '\n' || c = '\r'

/-- JavaScript `str.trim()`. -/
def jsTrim (s : Str) : Str :=
  ((s.dropWhile jsWhitespace).reverse.dropWhile jsWhitespace).reverse

/-- JavaScript `arr.slice(0, e)`. -/
def jsSliceTo {α : Type} (e : Int) (xs : List α) : List α :=
  if 0 ≤ e then xs.take e.toNat else xs.take ((xs.length : Int) + e).toNat

def intStr (i : Int) : Str := (toString i).data

def natStr (n : Nat) : Str := (toString n).data

/-- The external script executor: `none` models a thrown
`AppleScript execution failed` error, `some out` the trimmed stdout. -/
abbrev Exec := Str → Option Str

/-! ## Script builders

Each constant below is the exact AppleScript source text built inline by the
TypeScript code, split at its interpolation points. -/

/-- Query-search script (src/index.ts:288).  Note: the query is interpolated
directly, without `escapeForAppleScript`. -/
def searchQP1 : Str :=
  S "tell application \"Contacts\" to return name of people whose name contains \""

def searchQueryScript (query : Str) : Str := searchQP1 ++ query ++ S "\""

/-- Shared head of the two bounded-enumeration scripts
(src/index.ts:304-307 and 695-698). -/
def enumHeadP1 : Str :=
  S "tell application \"Contacts\"\n  set contactList to \x7b\x7d\n  set allPeople to people\n  repeat with i from 1 to "

def searchNoQueryP2 : Str :=
  S "\n    if i > (count of allPeople) then exit repeat\n    set aPerson to item i of allPeople\n    set end of contactList to name of aPerson\n  end repeat\n  return contactList\nend tell"

/-- No-query search script (src/index.ts:304-313); the embedded bound is
`Math.min(limit, 10)`. -/
def searchNoQueryScript (limit : Int) : Str :=
  enumHeadP1 ++ intStr (min limit 10) ++ searchNoQueryP2

def recentP2 : Str :=
  S "\n    if i > (count of allPeople) then exit repeat\n    set aPerson to item i of allPeople\n    set end of contactList to (name of aPerson & \"###SPLIT###\" & modification date of aPerson & \"###END###\")\n  end repeat\n  return contactList\nend tell"

/-- Recent-contacts script (src/index.ts:695-704); the embedded bound is
`Math.min(limit, 20)`. -/
def recentScript (limit : Int) : Str :=
  enumHeadP1 ++ intStr (min limit 20) ++ recentP2

def fetchP1 : Str :=
  S "tell application \"Contacts\"\n  try\n    set targetPerson to person id \""

def fetchP2 : Str :=
  S "\"\n  on error\n    try\n      set targetPerson to person \""

def fetchP3 : Str :=
  S "\"\n    on error\n      return \"Contact not found\"\n    end try\n  end try\n  \n  return id of targetPerson & \"|\" & name of targetPerson & \"|\" & organization of targetPerson & \"|\" & job title of targetPerson & \"|\" & note of targetPerson\nend tell"

/-- Fetch (get_contact) script (src/index.ts:338-350).  The identifier is
interpolated directly, without `escapeForAppleScript`. -/
def fetchScript (identifier : Str) : Str :=
  fetchP1 ++ identifier ++ fetchP2 ++ identifier ++ fetchP3

/-- Shared head of every per-contact follow-up script: all of them start
`tell application "Contacts"` and bind `targetPerson` by id. -/
def idHeader : Str :=
  S "tell application \"Contacts\"\n  set targetPerson to person id \""

def emailListTail : Str :=
  S "\"\n  set emailList to \x7b\x7d\n  repeat with anEmail in emails of targetPerson\n    set end of emailList to value of anEmail\n  end repeat\n  return emailList\nend tell"

/-- Email-list retrieval script (src/index.ts:369-376). -/
def emailListScript (cid : Str) : Str := idHeader ++ cid ++ emailListTail

def phoneListTail : Str :=
  S "\"\n  set phoneList to \x7b\x7d\n  repeat with aPhone in phones of targetPerson\n    set end of phoneList to value of aPhone\n  end repeat\n  return phoneList\nend tell"

/-- Phone-list retrieval script (src/index.ts:385-392). -/
def phoneListScript (cid : Str) : Str := idHeader ++ cid ++ phoneListTail

def urlListTail : Str :=
  S "\"\n  set urlList to \x7b\x7d\n  repeat with aUrl in urls of targetPerson\n    set end of urlList to (label of aUrl & \":\" & value of aUrl)\n  end repeat\n  return urlList\nend tell"

/-- URL-list retrieval script (src/index.ts:401-408). -/
def urlListScript (cid : Str) : Str := idHeader ++ cid ++ urlListTail

/-! ## Name splitting (create and name-update) -/

def nameParts (raw : Str) : List Str := jsSplit (S " ") (jsTrim raw)

def firstNameOf (raw : Str) : Str := (nameParts raw).headD []

def lastNameOf (raw : Str) : Str :=
  if 1 < (nameParts raw).length then jsJoin (S " ") (nameParts raw).tail else []

/-! ## Positional labels (create / email- and phone-update) -/

/-- Synthesized email label (src/index.ts:464 and 631):
`index === 0 ? 'home' : index === 1 ? 'work' : 'email' + (index+1)`. -/
def emailLabel (i : Nat) : Str :=
  if i = 0 then S "home" else if i = 1 then S "work" else S "email" ++ natStr (i + 1)

/-- Synthesized phone label (src/index.ts:472 and 666). -/
def phoneLabel (i : Nat) : Str :=
  if i = 0 then S "home" else if i = 1 then S "work" else S "phone" ++ natStr (i + 1)

/-! ## Create script (src/index.ts:436-488) -/

def createHead : Str :=
  S "\n      tell application \"Contacts\"\n        set newPerson to make new person"

/-- One conditional scalar-set block of the create template. -/
def condSet (prop : String) (v : Str) : Str :=
  S "\n        \n        if \"" ++ v ++ S "\" is not \"\" then\n          set " ++
    S prop ++ S " of newPerson to \"" ++ v ++ S "\"\n        end if"

def createFoot : Str :=
  S "\n        save\n        return id of newPerson\n      end tell\n    "

/-- Template form of one create email line, taking the already-escaped
value. -/
def createEmailLineT (i : Nat) (e : Str) : Str :=
  S "\n        make new email at end of emails of newPerson with properties \x7blabel:\"" ++
    emailLabel i ++ S "\", value:\"" ++ e ++ S "\"\x7d"

def createEmailLine (i : Nat) (e : Str) : Str :=
  createEmailLineT i (escapeForAppleScript e)

def createPhoneLineT (i : Nat) (p : Str) : Str :=
  S "\n        make new phone at end of phones of newPerson with properties \x7blabel:\"" ++
    phoneLabel i ++ S "\", value:\"" ++ p ++ S "\"\x7d"

def createPhoneLine (i : Nat) (p : Str) : Str :=
  createPhoneLineT i (escapeForAppleScript p)

def createUrlLineT (u : Str × Str) : Str :=
  S "\n        make new url at end of urls of newPerson with properties \x7blabel:\"" ++
    u.1 ++ S "\", value:\"" ++ u.2 ++ S "\"\x7d"

def createUrlLine (u : Str × Str) : Str :=
  createUrlLineT (escapeForAppleScript u.1, escapeForAppleScript u.2)

/-- The full create script: conditional scalar sets from the split name and
the scalar fields, then one `make new` line per email/phone/url
(`forEach` with `script +=` is modelled as a left fold). -/
def createScript (name org job note : Str) (emails phones : List Str)
    (urls : List (Str × Str)) : Str :=
  createHead ++
    condSet "first name" (escapeForAppleScript (firstNameOf name)) ++
    condSet "last name" (escapeForAppleScript (lastNameOf name)) ++
    condSet "organization" (escapeForAppleScript org) ++
    condSet "job title" (escapeForAppleScript job) ++
    condSet "note" (escapeForAppleScript note) ++
    S "\n    " ++
    (emails.enum).foldl (fun acc p => acc ++ createEmailLine p.1 p.2) [] ++
    (phones.enum).foldl (fun acc p => acc ++ createPhoneLine p.1 p.2) [] ++
    urls.foldl (fun acc u => acc ++ createUrlLine u) [] ++
    createFoot

/-- Template form of the create script over already-escaped field values:
used to state that every user-supplied string reaches the script only
through `escapeForAppleScript`. -/
def createScriptT (fn ln o j n : Str) (emails phones : List Str)
    (urls : List (Str × Str)) : Str :=
  createHead ++
    condSet "first name" fn ++
    condSet "last name" ln ++
    condSet "organization" o ++
    condSet "job title" j ++
    condSet "note" n ++
    S "\n    " ++
    (emails.enum).foldl (fun acc p => acc ++ createEmailLineT p.1 p.2) [] ++
    (phones.enum).foldl (fun acc p => acc ++ createPhoneLineT p.1 p.2) [] ++
    urls.foldl (fun acc u => acc ++ createUrlLineT u) [] ++
    createFoot

/-! ## Update mutation scripts (src/index.ts:524-678)

Every mutation script has the shape `idHeader ++ cid ++ "\"" ++ body ++
"\n  save\nend tell"`; `mutScript` captures this shared shape. -/

def mutTail : Str := S "\n  save\nend tell"

def mutScript (cid body : Str) : Str := idHeader ++ cid ++ S "\"" ++ body ++ mutTail

def nameBody (raw : Str) : Str :=
  S "\n  set first name of targetPerson to \"" ++
    escapeForAppleScript (firstNameOf raw) ++
    S "\"\n  set last name of targetPerson to \"" ++
    escapeForAppleScript (lastNameOf raw) ++ S "\""

def orgBody (v : Str) : Str :=
  S "\n  set organization of targetPerson to \"" ++ escapeForAppleScript v ++ S "\""

def jobBody (v : Str) : Str :=
  S "\n  set job title of targetPerson to \"" ++ escapeForAppleScript v ++ S "\""

def noteBody (v : Str) : Str :=
  S "\n  set note of targetPerson to \"" ++ escapeForAppleScript v ++ S "\""

def clearUrlBody : Str := S "\n  delete every url of targetPerson"

def clearEmailBody : Str := S "\n  delete every email of targetPerson"

def clearPhoneBody : Str := S "\n  delete every phone of targetPerson"

def urlLineUpd (u : Str × Str) : Str :=
  S "\n  make new url at end of urls of targetPerson with properties \x7blabel:\"" ++
    escapeForAppleScript u.1 ++ S "\", value:\"" ++ escapeForAppleScript u.2 ++ S "\"\x7d"

def emailLineUpd (i : Nat) (e : Str) : Str :=
  S "\n  make new email at end of emails of targetPerson with properties \x7blabel:\"" ++
    emailLabel i ++ S "\", value:\"" ++ escapeForAppleScript e ++ S "\"\x7d"

def phoneLineUpd (i : Nat) (p : Str) : Str :=
  S "\n  make new phone at end of phones of targetPerson with properties \x7blabel:\"" ++
    phoneLabel i ++ S "\", value:\"" ++ escapeForAppleScript p ++ S "\"\x7d"

def addUrlBody (l : List (Str × Str)) : Str :=
  l.foldl (fun acc u => acc ++ urlLineUpd u) []

def addEmailBody (l : List Str) : Str :=
  (l.enum).foldl (fun acc p => acc ++ emailLineUpd p.1 p.2) []

def addPhoneBody (l : List Str) : Str :=
  (l.enum).foldl (fun acc p => acc ++ phoneLineUpd p.1 p.2) []

def updNameScript (cid raw : Str) : Str := mutScript cid (nameBody raw)

def updOrgScript (cid v : Str) : Str := mutScript cid (orgBody v)

def updJobScript (cid v : Str) : Str := mutScript cid (jobBody v)

def updNoteScript (cid v : Str) : Str := mutScript cid (noteBody v)

def clearUrlScript (cid : Str) : Str := mutScript cid clearUrlBody

def addUrlScript (cid : Str) (l : List (Str × Str)) : Str := mutScript cid (addUrlBody l)

def clearEmailScript (cid : Str) : Str := mutScript cid clearEmailBody

def addEmailScript (cid : Str) (l : List Str) : Str := mutScript cid (addEmailBody l)

def clearPhoneScript (cid : Str) : Str := mutScript cid clearPhoneBody

def addPhoneScript (cid : Str) (l : List Str) : Str := mutScript cid (addPhoneBody l)

/-! ## Data model and operations -/

structure ContactOut where
  id : Str
  name : Str
  organization : Str
  job_title : Str
  note : Str
  emails : List Str
  phones : List Str
  urls : List (Str × Str)
deriving DecidableEq

/-- Outcome of `getContact`: `notFound` models the structured value
`{success: false, message: 'Contact not found'}`, `found c` models
`{success: true, contact: c}`. -/
inductive FetchResult where
  | notFound
  | found (c : ContactOut)
deriving DecidableEq

/-- URL entry decoding (src/index.ts:412-413):
`const [label, ...valueParts] = item.split(':')` with
`value = valueParts.join(':')`. -/
def parseUrlEntry (item : Str) : Str × Str :=
  ((jsSplit (S ":") item).headD [], jsJoin (S ":") (jsSplit (S ":") item).tail)

/-- `getContact` (src/index.ts:334-426).  The second component is the list
of scripts passed to the executor, in order.  A `none` answer for the main
script is the thrown `Get contact failed` error; failures of the three
secondary scripts are swallowed, leaving the corresponding field `[]`. -/
def getContact (exec : Exec) (identifier : Str) : Except Str FetchResult × List Str :=
  match exec (fetchScript identifier) with
  | none => (Except.error (S "Get contact failed"), [fetchScript identifier])
  | some r =>
    if r = S "Contact not found" then
      (Except.ok FetchResult.notFound, [fetchScript identifier])
    else
      let parts := jsSplit (S "|") r
      let cid := parts.headD []
      let emails :=
        match exec (emailListScript cid) with
        | none => []
        | some er => if er = [] then [] else jsSplit (S ", ") er
      let phones :=
        match exec (phoneListScript cid) with
        | none => []
        | some pr => if pr = [] then [] else jsSplit (S ", ") pr
      let urls :=
        match exec (urlListScript cid) with
        | none => []
        | some ur => if ur = [] then [] else (jsSplit (S ", ") ur).map parseUrlEntry
      (Except.ok (FetchResult.found
        { id := cid
          name := parts.getD 1 []
          organization := parts.getD 2 []
          job_title := parts.getD 3 []
          note := parts.getD 4 []
          emails := emails
          phones := phones
          urls := urls }),
       [fetchScript identifier, emailListScript cid, phoneListScript cid, urlListScript cid])

structure SContact where
  name : Str
  organization : Str
deriving DecidableEq

structure SearchResult where
  success : Bool
  count : Nat
  contacts : List SContact
deriving DecidableEq

/-- `searchContacts` (src/index.ts:282-332).  `query` is tested for JS
truthiness (`undefined` and `''` both take the no-query branch).  In the
query branch the split result is NOT guarded against empty output; in the
no-query branch it is (`result ? result.split(', ').slice(0, limit) : []`). -/
def searchContacts (exec : Exec) (query : Option Str) (limit : Int) :
    Except Str SearchResult :=
  let qv := query.getD []
  if qv = [] then
    match exec (searchNoQueryScript limit) with
    | none => Except.error (S "Search failed")
    | some result =>
      let names := if result = [] then [] else jsSliceTo limit (jsSplit (S ", ") result)
      let contacts := names.map (fun n => ({ name := jsTrim n, organization := [] } : SContact))
      Except.ok { success := true, count := contacts.length, contacts := contacts }
  else
    match exec (searchQueryScript qv) with
    | none => Except.error (S "Search failed")
    | some result =>
      let names := jsSliceTo limit (jsSplit (S ", ") result)
      let contacts := names.map (fun n => ({ name := jsTrim n, organization := [] } : SContact))
      Except.ok { success := true, count := contacts.length, contacts := contacts }

structure CreateResult where
  contact_id : Str
deriving DecidableEq

/-- `createContact` (src/index.ts:428-502): one script, whose output is the
new record's id. -/
def createContact (exec : Exec) (name org job note : Str)
    (emails phones : List Str) (urls : List (Str × Str)) : Except Str CreateResult :=
  match exec (createScript name org job note emails phones urls) with
  | none => Except.error (S "Create contact failed")
  | some cid => Except.ok { contact_id := cid }

/-- The optional fields of an update request; `none` models an absent
(`undefined`) field. -/
structure Updates where
  name : Option Str := none
  organization : Option Str := none
  job_title : Option Str := none
  note : Option Str := none
  urls : Option (List (Str × Str)) := none
  emails : Option (List Str) := none
  phones : Option (List Str) := none

structure UpdateResult where
  updated_fields : List Str
deriving DecidableEq

/-- Run a list of scripts in order, stopping at the first failure; returns
whether all succeeded together with the scripts actually executed. -/
def runSeq (exec : Exec) : List Str → Bool × List Str
  | [] => (true, [])
  | s :: rest =>
    match exec s with
    | none => (false, [s])
    | some _ =>
      let r := runSeq exec rest
      (r.1, s :: r.2)

/-- One `if (updates.f !== undefined) { try { ...scripts... push(fname) }
catch { log } }` block: absent field runs nothing; a present field
contributes its name exactly when all its scripts succeed. -/
def optStep {α : Type} (exec : Exec) (fname : Str) (scripts : α → List Str) :
    Option α → List Str × List Str
  | none => ([], [])
  | some v =>
    let r := runSeq exec (scripts v)
    (if r.1 then [fname] else [], r.2)

/-- Scripts for a url update: clear, then (for a non-empty list) one add
script (src/index.ts:581-612). -/
def urlScripts (cid : Str) (l : List (Str × Str)) : List Str :=
  clearUrlScript cid :: (if 0 < l.length then [addUrlScript cid l] else [])

def emailScripts (cid : Str) (l : List Str) : List Str :=
  clearEmailScript cid :: (if 0 < l.length then [addEmailScript cid l] else [])

def phoneScripts (cid : Str) (l : List Str) : List Str :=
  clearPhoneScript cid :: (if 0 < l.length then [addPhoneScript cid l] else [])

/-- `updateContact` (src/index.ts:504-689): resolve via `getContact`
(throwing `Contact not found` if it does not resolve), then run the
independent per-field mutation scripts in source order (name, organization,
job_title, note, urls, emails, phones), collecting the names of the fields
whose scripts all succeeded. -/
def updateContact (exec : Exec) (identifier : Str) (u : Updates) :
    Except Str UpdateResult × List Str :=
  let g := getContact exec identifier
  match g.1 with
  | Except.error e => (Except.error e, g.2)
  | Except.ok FetchResult.notFound => (Except.error (S "Contact not found"), g.2)
  | Except.ok (FetchResult.found c) =>
    let p1 := optStep exec (S "name") (fun v => [updNameScript c.id v]) u.name
    let p2 := optStep exec (S "organization") (fun v => [updOrgScript c.id v]) u.organization
    let p3 := optStep exec (S "job_title") (fun v => [updJobScript c.id v]) u.job_title
    let p4 := optStep exec (S "note") (fun v => [updNoteScript c.id v]) u.note
    let p5 := optStep exec (S "urls") (urlScripts c.id) u.urls
    let p6 := optStep exec (S "emails") (emailScripts c.id) u.emails
    let p7 := optStep exec (S "phones") (phoneScripts c.id) u.phones
    (Except.ok { updated_fields := p1.1 ++ p2.1 ++ p3.1 ++ p4.1 ++ p5.1 ++ p6.1 ++ p7.1 },
     g.2 ++ p1.2 ++ p2.2 ++ p3.2 ++ p4.2 ++ p5.2 ++ p6.2 ++ p7.2)

/-! ## Theorems -/

theorem replaceChar_append (c : Char) (r : Str) (a b : Str) :
    replaceChar c r (a ++ b) = replaceChar c r a ++ replaceChar c r b := by
  induction a with
  | nil => simp [replaceChar]
  | cons x xs ih => simp [replaceChar, ih, List.append_assoc]

theorem escapeForAppleScript_append (a b : Str) :
    escapeForAppleScript (a ++ b) =
      escapeForAppleScript a ++ escapeForAppleScript b := by
  simp [escapeForAppleScript, replaceChar_append]

theorem escapeForAppleScript_single (x : Char) :
    escapeForAppleScript [x] = escChar x := by
  by_cases h1 : x = '\\'
  · subst h1; decide
  · by_cases h2 : x = '"'
    · subst h2; decide
    · by_cases h3 : x = '\n'
      · subst h3; decide
      · by_cases h4 : x = '\r'
        · subst h4; decide
        · by_cases h5 : x = '\t'
          · subst h5; decide
          · simp [escapeForAppleScript, replaceChar, escChar, h1, h2, h3, h4, h5]

/-- C1: `escapeForAppleScript` is exactly the in-order composition of the
five substitutions (backslash first, then double quote, then newline,
carriage return, tab), and — because the escape character is handled first —
this composition acts independently on each character of the input
(`escChar`), so the function is pure and total on every string, including
the empty string, all-control-character strings, and strings containing
backslashes. -/
theorem escapeForAppleScript_ordered_substitutions (s : Str) :
    escapeForAppleScript s =
      replaceChar '\t' (S "\\t")
        (replaceChar '\r' (S "\\r")
          (replaceChar '\n' (S "\\n")
            (replaceChar '"' (S "\\\"")
              (replaceChar '\\' (S "\\\\") s)))) ∧
    escapeForAppleScript s = (s.map escChar).flatten := by
  refine ⟨rfl, ?_⟩
  induction s with
  | nil => rfl
  | cons x xs ih =>
    have hx : x :: xs = [x] ++ xs := rfl
    rw [hx, escapeForAppleScript_append, escapeForAppleScript_single, ih]
    simp

theorem foldl_append_lines {α : Type} (f : α → Str) (l : List α) (init : Str) :
    l.foldl (fun acc x => acc ++ f x) init = init ++ (l.map f).flatten := by
  induction l generalizing init with
  | nil => simp
  | cons x xs ih => simp [List.foldl_cons, ih, List.append_assoc]

theorem enumFrom_map_snd_fun {α β : Type} (f : α → β) :
    ∀ (n : Nat) (l : List α),
      (l.map f).enumFrom n = (l.enumFrom n).map (fun p => (p.1, f p.2)) := by
  intro n l
  induction l generalizing n with
  | nil => simp
  | cons x xs ih => simp [List.enumFrom, ih]

theorem enum_map_snd_fun {α β : Type} (f : α → β) (l : List α) :
    (l.map f).enum = l.enum.map (fun p => (p.1, f p.2)) :=
  enumFrom_map_snd_fun f 0 l

/-- C7: the row bound embedded in the no-query search enumeration script is
`min limit 10` and the one embedded in the recent-contacts enumeration
script is `min limit 20`; both are therefore at most the fixed windows 10
and 20, whatever limit the caller supplies. -/
theorem embedded_bounds_clamped (limit : Int) :
    searchNoQueryScript limit = enumHeadP1 ++ intStr (min limit 10) ++ searchNoQueryP2 ∧
    min limit 10 ≤ 10 ∧
    recentScript limit = enumHeadP1 ++ intStr (min limit 20) ++ recentP2 ∧
    min limit 20 ≤ 20 :=
  ⟨rfl, min_le_right _ _, rfl, min_le_right _ _⟩

/-- C8: email and phone labels are synthesized purely from the entry's
position (`home`, `work`, then `email(i+1)`/`phone(i+1)` for indices
`i ≥ 2`) — the label slot of every generated email/phone line is
`emailLabel i`/`phoneLabel i`, a function of the index alone, never of the
user-supplied value — while every generated url line embeds the
user-supplied label of the pair (escaped for embedding, which preserves the
denoted string). -/
theorem entry_labels_positional :
    emailLabel 0 = S "home" ∧ emailLabel 1 = S "work" ∧
    (∀ i, 2 ≤ i → emailLabel i = S "email" ++ natStr (i + 1)) ∧
    phoneLabel 0 = S "home" ∧ phoneLabel 1 = S "work" ∧
    (∀ i, 2 ≤ i → phoneLabel i = S "phone" ++ natStr (i + 1)) ∧
    (∀ i e, createEmailLine i e =
      S "\n        make new email at end of emails of newPerson with properties \x7blabel:\"" ++
        emailLabel i ++ S "\", value:\"" ++ escapeForAppleScript e ++ S "\"\x7d") ∧
    (∀ i p, createPhoneLine i p =
      S "\n        make new phone at end of phones of newPerson with properties \x7blabel:\"" ++
        phoneLabel i ++ S "\", value:\"" ++ escapeForAppleScript p ++ S "\"\x7d") ∧
    (∀ u : Str × Str, createUrlLine u =
      S "\n        make new url at end of urls of newPerson with properties \x7blabel:\"" ++
        escapeForAppleScript u.1 ++ S "\", value:\"" ++ escapeForAppleScript u.2 ++ S "\"\x7d") ∧
    (∀ i e, emailLineUpd i e =
      S "\n  make new email at end of emails of targetPerson with properties \x7blabel:\"" ++
        emailLabel i ++ S "\", value:\"" ++ escapeForAppleScript e ++ S "\"\x7d") ∧
    (∀ i p, phoneLineUpd i p =
      S "\n  make new phone at end of phones of targetPerson with properties \x7blabel:\"" ++
        phoneLabel i ++ S "\", value:\"" ++ escapeForAppleScript p ++ S "\"\x7d") ∧
    (∀ u : Str × Str, urlLineUpd u =
      S "\n  make new url at end of urls of targetPerson with properties \x7blabel:\"" ++
        escapeForAppleScript u.1 ++ S "\", value:\"" ++ escapeForAppleScript u.2 ++ S "\"\x7d") := by
  refine ⟨rfl, rfl, ?_, rfl, rfl, ?_, fun i e => rfl, fun i p => rfl, fun u => rfl,
    fun i e => rfl, fun i p => rfl, fun u => rfl⟩
  · intro i hi
    have h0 : ¬ i = 0 := by omega
    have h1 : ¬ i = 1 := by omega
    simp [emailLabel, h0, h1]
  · intro i hi
    have h0 : ¬ i = 0 := by omega
    have h1 : ¬ i = 1 := by omega
    simp [phoneLabel, h0, h1]

theorem entry_labels_positional_witness :
    emailLabel 5 = S "email" ++ natStr 6 ∧ phoneLabel 4 = S "phone" ++ natStr 5 :=
  ⟨entry_labels_positional.2.2.1 5 (by decide),
   entry_labels_positional.2.2.2.2.2.1 4 (by decide)⟩

/-- C4: whenever the executor answers the fetch script with the sentinel
string `Contact not found` (which the script returns, instead of raising,
when neither id- nor exact-name-lookup resolves), `getContact` returns the
structured not-found value (`{success: false, message: 'Contact not
found'}`) rather than throwing; and the generated script does contain the
sentinel-returning line. -/
theorem getContact_notFound_structured (exec : Exec) (identifier : Str)
    (h : exec (fetchScript identifier) = some (S "Contact not found")) :
    (getContact exec identifier).1 = Except.ok FetchResult.notFound ∧
    List.IsInfix (S "return \"Contact not found\"") (fetchScript identifier) := by
  constructor
  · simp [getContact, h]
  · have h3 : List.IsInfix (S "return \"Contact not found\"") fetchP3 := by decide
    exact h3.trans (List.suffix_append _ fetchP3).isInfix

theorem getContact_notFound_structured_witness :
    (getContact (fun _ => some (S "Contact not found")) (S "nonexistent-id")).1 =
      Except.ok FetchResult.notFound ∧
    List.IsInfix (S "return \"Contact not found\"") (fetchScript (S "nonexistent-id")) :=
  getContact_notFound_structured (fun _ => some (S "Contact not found"))
    (S "nonexistent-id") rfl

/-- C6 (code bug): on an empty match set (the executor returns no output)
the query branch of `searchContacts` does NOT treat the empty output as an
empty collection: `''.split(', ')` is `['']`, so the call returns
`{success: true, count: 1, contacts: [{name: '', organization: ''}]}` — one
phantom contact — instead of the claimed
`{success: true, count: 0, contacts: []}` (the no-query branch, by
contrast, guards: `result ? result.split(', ').slice(0, limit) : []`). -/
theorem searchContacts_empty_output_phantom :
    searchContacts (fun _ => some []) (some (S "NoSuchOrg123")) 20 =
      Except.ok { success := true, count := 1,
                  contacts := [{ name := [], organization := [] }] } ∧
    searchContacts (fun _ => some []) none 20 =
      Except.ok { success := true, count := 0, contacts := [] } := by
  exact ⟨rfl, rfl⟩

/-- C2 (counterexample): the search query is embedded in the generated
script raw, NOT through the Script Escaper — at the concrete query
consisting of one double quote the generated script differs from the script
that would embed the escaped query. -/
theorem searchQuery_not_escaped_counterexample :
    searchQueryScript (S "\"") ≠
      searchQP1 ++ escapeForAppleScript (S "\"") ++ S "\"" := by
  decide

/-- C2 (amended): `createContact` and `updateContact` pass every
user-supplied string through `escapeForAppleScript` before embedding it
(the contact id interpolated by the update scripts is the one previously
returned by fetch); but `searchContacts` embeds the query and `getContact`
embeds the identifier directly, without escaping. -/
theorem escaping_policy :
    (∀ q, searchQueryScript q = searchQP1 ++ q ++ S "\"") ∧
    (∀ idf, fetchScript idf = fetchP1 ++ idf ++ fetchP2 ++ idf ++ fetchP3) ∧
    (∀ name org job note emails phones urls,
      createScript name org job note emails phones urls =
        createScriptT (escapeForAppleScript (firstNameOf name))
          (escapeForAppleScript (lastNameOf name))
          (escapeForAppleScript org) (escapeForAppleScript job)
          (escapeForAppleScript note)
          (emails.map escapeForAppleScript) (phones.map escapeForAppleScript)
          (urls.map (fun u => (escapeForAppleScript u.1, escapeForAppleScript u.2)))) ∧
    (∀ cid raw, updNameScript cid raw = mutScript cid
      (S "\n  set first name of targetPerson to \"" ++
        escapeForAppleScript (firstNameOf raw) ++
        S "\"\n  set last name of targetPerson to \"" ++
        escapeForAppleScript (lastNameOf raw) ++ S "\"")) ∧
    (∀ cid v, updOrgScript cid v = mutScript cid
      (S "\n  set organization of targetPerson to \"" ++ escapeForAppleScript v ++ S "\"")) ∧
    (∀ cid v, updJobScript cid v = mutScript cid
      (S "\n  set job title of targetPerson to \"" ++ escapeForAppleScript v ++ S "\"")) ∧
    (∀ cid v, updNoteScript cid v = mutScript cid
      (S "\n  set note of targetPerson to \"" ++ escapeForAppleScript v ++ S "\"")) ∧
    (∀ cid l, addUrlScript cid l =
      mutScript cid ((l.map (fun u =>
        S "\n  make new url at end of urls of targetPerson with properties \x7blabel:\"" ++
          escapeForAppleScript u.1 ++ S "\", value:\"" ++
          escapeForAppleScript u.2 ++ S "\"\x7d")).flatten)) ∧
    (∀ cid l, addEmailScript cid l =
      mutScript cid (((l.enum).map (fun p =>
        S "\n  make new email at end of emails of targetPerson with properties \x7blabel:\"" ++
          emailLabel p.1 ++ S "\", value:\"" ++
          escapeForAppleScript p.2 ++ S "\"\x7d")).flatten)) ∧
    (∀ cid l, addPhoneScript cid l =
      mutScript cid (((l.enum).map (fun p =>
        S "\n  make new phone at end of phones of targetPerson with properties \x7blabel:\"" ++
          phoneLabel p.1 ++ S "\", value:\"" ++
          escapeForAppleScript p.2 ++ S "\"\x7d")).flatten)) := by
  refine ⟨fun q => rfl, fun idf => rfl, ?_, fun cid raw => rfl, fun cid v => rfl,
    fun cid v => rfl, fun cid v => rfl, ?_, ?_, ?_⟩
  · intro name org job note emails phones urls
    simp only [createScript, createScriptT, foldl_append_lines, enum_map_snd_fun,
      List.map_map, List.nil_append]
    rfl
  · intro cid l
    simp only [addUrlScript, addUrlBody, foldl_append_lines, List.nil_append, urlLineUpd]
  · intro cid l
    simp only [addEmailScript, addEmailBody, foldl_append_lines, List.nil_append, emailLineUpd]
  · intro cid l
    simp only [addPhoneScript, addPhoneBody, foldl_append_lines, List.nil_append, phoneLineUpd]

theorem jsSplitGo_ne_nil (sep : Str) :
    ∀ fuel acc l, jsSplitGo sep fuel acc l ≠ [] := by
  intro fuel
  induction fuel with
  | zero => intro acc l; simp [jsSplitGo]
  | succ f ih =>
    intro acc l
    cases l with
    | nil => simp [jsSplitGo]
    | cons x xs =>
      simp only [jsSplitGo]
      split
      · simp
      · exact ih _ _

theorem jsJoin_cons_ne (sep a : Str) (rest : List Str) (h : rest ≠ []) :
    jsJoin sep (a :: rest) = a ++ sep ++ jsJoin sep rest := by
  cases rest with
  | nil => exact absurd rfl h
  | cons y r => rfl

theorem single_isPrefixOf (c x : Char) (xs : Str) :
    [c].isPrefixOf (x :: xs) = (c == x) := by
  simp [List.isPrefixOf]

theorem jsSplitGo_head_single (c : Char) :
    ∀ fuel acc l, l.length ≤ fuel →
      (jsSplitGo [c] fuel acc l).headD [] =
        acc.reverse ++ l.takeWhile (fun x => x != c) := by
  intro fuel
  induction fuel with
  | zero =>
    intro acc l h
    have hl : l = [] := List.eq_nil_of_length_eq_zero (Nat.le_zero.mp h)
    subst hl; simp [jsSplitGo]
  | succ f ih =>
    intro acc l h
    cases l with
    | nil => simp [jsSplitGo]
    | cons x xs =>
      simp only [jsSplitGo, single_isPrefixOf]
      by_cases hc : c = x
      · subst hc
        simp [List.takeWhile]
      · have hb : (c == x) = false := by simp [hc]
        rw [hb]
        simp only [Bool.false_eq_true, if_false]
        have := ih (x :: acc) xs (by simpa using Nat.le_of_succ_le_succ h)
        rw [this]
        have hx : (x != c) = true := by
          simp only [bne_iff_ne, ne_eq]
          exact fun hh => hc hh.symm
        simp [List.takeWhile, hx, List.append_assoc]

theorem jsSplitGo_join_single (c : Char) :
    ∀ fuel acc l, l.length ≤ fuel →
      jsJoin [c] (jsSplitGo [c] fuel acc l) = acc.reverse ++ l := by
  intro fuel
  induction fuel with
  | zero =>
    intro acc l h
    have hl : l = [] := List.eq_nil_of_length_eq_zero (Nat.le_zero.mp h)
    subst hl; simp [jsSplitGo, jsJoin]
  | succ f ih =>
    intro acc l h
    cases l with
    | nil => simp [jsSplitGo, jsJoin]
    | cons x xs =>
      simp only [jsSplitGo, single_isPrefixOf]
      by_cases hc : c = x
      · subst hc
        have hd : List.drop ([c].length - 1) xs = xs := by simp
        simp only [beq_self_eq_true, if_true, hd]
        rw [jsJoin_cons_ne _ _ _ (jsSplitGo_ne_nil _ _ _ _),
          ih [] xs (by simpa using Nat.le_of_succ_le_succ h)]
        simp
      · have hb : (c == x) = false := by simp [hc]
        rw [hb]
        simp only [Bool.false_eq_true, if_false]
        rw [ih (x :: acc) xs (by simpa using Nat.le_of_succ_le_succ h)]
        simp

theorem jsSplitGo_length_two (c : Char) :
    ∀ fuel acc l, l.length ≤ fuel → c ∈ l →
      2 ≤ (jsSplitGo [c] fuel acc l).length := by
  intro fuel
  induction fuel with
  | zero =>
    intro acc l h hm
    have hl : l = [] := List.eq_nil_of_length_eq_zero (Nat.le_zero.mp h)
    subst hl; simp at hm
  | succ f ih =>
    intro acc l h hm
    cases l with
    | nil => simp at hm
    | cons x xs =>
      simp only [jsSplitGo, single_isPrefixOf]
      by_cases hc : c = x
      · subst hc
        rw [if_pos (show (c == c) = true by simp), List.length_cons]
        have := jsSplitGo_ne_nil [c] f [] (xs.drop ([c].length - 1))
        have hpos := List.length_pos.mpr this
        omega
      · have hb : (c == x) = false := by simp [hc]
        rw [hb]
        simp only [Bool.false_eq_true, if_false]
        have hmx : c ∈ xs := by
          cases hm with
          | head => exact absurd rfl hc
          | tail _ hmem => exact hmem
        exact ih (x :: acc) xs (by simpa using Nat.le_of_succ_le_succ h) hmx

/-- C10: the url-entry decoder splits at the first colon only — the label
is exactly the text before the first colon, and whenever the entry contains
a colon, `label ++ ":" ++ value` reconstructs the entry exactly, so colons
inside url values are preserved. -/
theorem parseUrlEntry_first_colon (item : Str) :
    (parseUrlEntry item).1 = item.takeWhile (fun x => x != ':') ∧
    (':' ∈ item → (parseUrlEntry item).1 ++ ':' :: (parseUrlEntry item).2 = item) := by
  have hS : S ":" = [':'] := rfl
  constructor
  · have := jsSplitGo_head_single ':' item.length [] item (le_refl _)
    simpa [parseUrlEntry, jsSplit, hS] using this
  · intro hmem
    have hjoin := jsSplitGo_join_single ':' item.length [] item (le_refl _)
    have hlen := jsSplitGo_length_two ':' item.length [] item (le_refl _) hmem
    rcases hsplit : jsSplitGo [':'] item.length [] item with _ | ⟨a, rest⟩
    · exact absurd hsplit (jsSplitGo_ne_nil _ _ _ _)
    · have hrest : rest ≠ [] := by
        intro h0
        rw [hsplit, h0] at hlen
        simp at hlen
      rw [hsplit, jsJoin_cons_ne _ _ _ hrest] at hjoin
      simp only [parseUrlEntry, jsSplit, hS, hsplit, List.headD_cons, List.tail_cons]
      simpa [List.append_assoc] using hjoin

theorem parseUrlEntry_first_colon_witness :
    (parseUrlEntry (S "https://ab.c")).1 ++ ':' :: (parseUrlEntry (S "https://ab.c")).2 =
      S "https://ab.c" :=
  (parseUrlEntry_first_colon (S "https://ab.c")).2 (by decide)

/-- C9: when the main fetch script succeeds and does not answer the
not-found sentinel, `getContact` always returns success with a contact whose
`emails`, `phones` and `urls` fields are (possibly empty) lists; a thrown
failure of any of the three secondary list-retrieval scripts is swallowed
and leaves the corresponding field `[]` — it is never propagated. -/
theorem getContact_secondary_isolation (exec : Exec) (identifier r : Str)
    (h1 : exec (fetchScript identifier) = some r)
    (h2 : r ≠ S "Contact not found") :
    ∃ c, (getContact exec identifier).1 = Except.ok (FetchResult.found c) ∧
      (exec (emailListScript c.id) = none → c.emails = []) ∧
      (exec (phoneListScript c.id) = none → c.phones = []) ∧
      (exec (urlListScript c.id) = none → c.urls = []) := by
  simp only [getContact, h1, if_neg h2]
  refine ⟨_, rfl, ?_, ?_, ?_⟩ <;> intro hn <;> simp at hn <;> simp [hn]

set_option maxRecDepth 100000 in
theorem getContact_secondary_isolation_witness :
    ∃ c, (getContact
        (fun s => if s = fetchScript (S "idZ") then some (S "a|b|c|d|e") else none)
        (S "idZ")).1 = Except.ok (FetchResult.found c) ∧
      ((fun s => if s = fetchScript (S "idZ") then some (S "a|b|c|d|e") else none)
          (emailListScript c.id) = none → c.emails = []) ∧
      ((fun s => if s = fetchScript (S "idZ") then some (S "a|b|c|d|e") else none)
          (phoneListScript c.id) = none → c.phones = []) ∧
      ((fun s => if s = fetchScript (S "idZ") then some (S "a|b|c|d|e") else none)
          (urlListScript c.id) = none → c.urls = []) :=
  getContact_secondary_isolation
    (fun s => if s = fetchScript (S "idZ") then some (S "a|b|c|d|e") else none)
    (S "idZ") (S "a|b|c|d|e") (by decide) (by decide)

theorem getContact_found_trace (exec : Exec) (identifier : Str) (c : ContactOut)
    (h : (getContact exec identifier).1 = Except.ok (FetchResult.found c)) :
    (getContact exec identifier).2 =
      [fetchScript identifier, emailListScript c.id, phoneListScript c.id,
        urlListScript c.id] := by
  cases hx : exec (fetchScript identifier) with
  | none => simp [getContact, hx] at h
  | some r =>
    by_cases hr : r = S "Contact not found"
    · simp [getContact, hx, hr] at h
    · simp only [getContact, hx, if_neg hr] at h ⊢
      rw [Except.ok.injEq, FetchResult.found.injEq] at h
      subst h
      rfl

theorem updateContact_found (exec : Exec) (identifier : Str) (u : Updates) (c : ContactOut)
    (h : (getContact exec identifier).1 = Except.ok (FetchResult.found c)) :
    updateContact exec identifier u =
      (Except.ok { updated_fields :=
        (optStep exec (S "name") (fun v => [updNameScript c.id v]) u.name).1 ++
        (optStep exec (S "organization") (fun v => [updOrgScript c.id v]) u.organization).1 ++
        (optStep exec (S "job_title") (fun v => [updJobScript c.id v]) u.job_title).1 ++
        (optStep exec (S "note") (fun v => [updNoteScript c.id v]) u.note).1 ++
        (optStep exec (S "urls") (urlScripts c.id) u.urls).1 ++
        (optStep exec (S "emails") (emailScripts c.id) u.emails).1 ++
        (optStep exec (S "phones") (phoneScripts c.id) u.phones).1 },
       (getContact exec identifier).2 ++
        (optStep exec (S "name") (fun v => [updNameScript c.id v]) u.name).2 ++
        (optStep exec (S "organization") (fun v => [updOrgScript c.id v]) u.organization).2 ++
        (optStep exec (S "job_title") (fun v => [updJobScript c.id v]) u.job_title).2 ++
        (optStep exec (S "note") (fun v => [updNoteScript c.id v]) u.note).2 ++
        (optStep exec (S "urls") (urlScripts c.id) u.urls).2 ++
        (optStep exec (S "emails") (emailScripts c.id) u.emails).2 ++
        (optStep exec (S "phones") (phoneScripts c.id) u.phones).2) := by
  simp only [updateContact, h]

theorem runSeq_single_true (exec : Exec) (s : Str) :
    ((runSeq exec [s]).1 = true) ↔ exec s ≠ none := by
  cases h : exec s <;> simp [runSeq, h]

theorem runSeq_mem (exec : Exec) :
    ∀ (L : List Str) (x : Str), x ∈ (runSeq exec L).2 → x ∈ L := by
  intro L
  induction L with
  | nil => intro x hx; simp [runSeq] at hx
  | cons a rest ih =>
    intro x hx
    cases ha : exec a with
    | none =>
      simp [runSeq, ha] at hx
      simp [hx]
    | some o =>
      simp only [runSeq, ha] at hx
      rcases List.mem_cons.mp hx with rfl | hx'
      · exact List.mem_cons_self _ _
      · exact List.mem_cons_of_mem _ (ih x hx')

theorem optStep_fst_mem {α : Type} (exec : Exec) (fname : Str) (scripts : α → List Str)
    (o : Option α) (x : Str) :
    x ∈ (optStep exec fname scripts o).1 ↔
      x = fname ∧ ∃ v, o = some v ∧ (runSeq exec (scripts v)).1 = true := by
  cases o with
  | none => simp [optStep]
  | some v =>
    cases hb : (runSeq exec (scripts v)).1 <;> simp [optStep, hb]

theorem optStep_snd_mem {α : Type} (exec : Exec) (fname : Str) (scripts : α → List Str)
    (o : Option α) (x : Str) (hx : x ∈ (optStep exec fname scripts o).2) :
    ∃ v, o = some v ∧ x ∈ scripts v := by
  cases o with
  | none => simp [optStep] at hx
  | some v =>
    refine ⟨v, rfl, ?_⟩
    simp only [optStep] at hx
    exact runSeq_mem exec _ x hx

/-- C3: whenever the identifier resolves via fetch, `updateContact` returns
overall success (never throws) with `updated_fields` containing each field
name exactly when that field was present in the request and its mutation
script(s) succeeded under the executor; in particular a failing
note-mutation script never removes `organization` from the list, and an
update in which every per-field script fails still returns success with an
empty list. -/
theorem updateContact_per_field (exec : Exec) (identifier : Str) (u : Updates)
    (c : ContactOut)
    (h : (getContact exec identifier).1 = Except.ok (FetchResult.found c)) :
    ∃ r tr, updateContact exec identifier u = (Except.ok r, tr) ∧
      (S "name" ∈ r.updated_fields ↔
        ∃ v, u.name = some v ∧ exec (updNameScript c.id v) ≠ none) ∧
      (S "organization" ∈ r.updated_fields ↔
        ∃ v, u.organization = some v ∧ exec (updOrgScript c.id v) ≠ none) ∧
      (S "job_title" ∈ r.updated_fields ↔
        ∃ v, u.job_title = some v ∧ exec (updJobScript c.id v) ≠ none) ∧
      (S "note" ∈ r.updated_fields ↔
        ∃ v, u.note = some v ∧ exec (updNoteScript c.id v) ≠ none) ∧
      (S "urls" ∈ r.updated_fields ↔
        ∃ l, u.urls = some l ∧ (runSeq exec (urlScripts c.id l)).1 = true) ∧
      (S "emails" ∈ r.updated_fields ↔
        ∃ l, u.emails = some l ∧ (runSeq exec (emailScripts c.id l)).1 = true) ∧
      (S "phones" ∈ r.updated_fields ↔
        ∃ l, u.phones = some l ∧ (runSeq exec (phoneScripts c.id l)).1 = true) := by
  refine ⟨_, _, updateContact_found exec identifier u c h, ?_, ?_, ?_, ?_, ?_, ?_, ?_⟩ <;>
    simp +decide [List.mem_append, optStep_fst_mem, runSeq_single_true]

set_option maxRecDepth 1000000 in
theorem updateContact_per_field_witness :
    ∃ r tr,
      updateContact
        (fun s => if s = updNoteScript (S "pid") (S "bad") then none
          else if s = fetchScript (S "X-id") then some (S "pid|Bob|Org|JT|N") else some [])
        (S "X-id")
        { organization := some (S "NewOrg"), note := some (S "bad") } = (Except.ok r, tr) ∧
      S "organization" ∈ r.updated_fields ∧ S "note" ∉ r.updated_fields := by
  obtain ⟨r, tr, heq, _, horg, _, hnote, _⟩ :=
    updateContact_per_field
      (fun s => if s = updNoteScript (S "pid") (S "bad") then none
        else if s = fetchScript (S "X-id") then some (S "pid|Bob|Org|JT|N") else some [])
      (S "X-id")
      { organization := some (S "NewOrg"), note := some (S "bad") }
      { id := S "pid", name := S "Bob", organization := S "Org", job_title := S "JT",
        note := S "N", emails := [], phones := [], urls := [] }
      (by rfl)
  refine ⟨r, tr, heq, horg.mpr ⟨S "NewOrg", rfl, by decide⟩, ?_⟩
  intro hmem
  obtain ⟨v, hv, hne⟩ := hnote.mp hmem
  cases hv
  exact hne (by decide)

theorem ne_of_at (k : Nat) {a b : Str} (h : a[k]? ≠ b[k]?) : a ≠ b :=
  fun he => h (he ▸ rfl)

theorem getElem_pre {p : Str} (rest : Str) {k : Nat} (h : k < p.length) :
    (p ++ rest)[k]? = p[k]? := List.getElem?_append_left h

theorem mutScript_body_inj {cid b1 b2 : Str}
    (h : mutScript cid b1 = mutScript cid b2) : b1 = b2 := by
  simp only [mutScript] at h
  exact List.append_cancel_left (List.append_cancel_right h)

theorem mutScript_ne_of_body_ne {cid b1 b2 : Str} (h : b1 ≠ b2) :
    mutScript cid b1 ≠ mutScript cid b2 :=
  fun he => h (mutScript_body_inj he)

theorem fetchScript_ne_mutScript (idf cid b : Str) :
    fetchScript idf ≠ mutScript cid b := by
  intro h
  have h30 : (fetchScript idf)[30]? = (mutScript cid b)[30]? := by rw [h]
  rw [show fetchScript idf = fetchP1 ++ (idf ++ (fetchP2 ++ (idf ++ fetchP3))) by
        simp [fetchScript, List.append_assoc],
      show mutScript cid b = idHeader ++ (cid ++ (S "\"" ++ (b ++ mutTail))) by
        simp [mutScript, List.append_assoc],
      getElem_pre _ (by decide : (30 : Nat) < fetchP1.length),
      getElem_pre _ (by decide : (30 : Nat) < idHeader.length)] at h30
  exact absurd h30 (by decide)

theorem emailListScript_ne_mutScript (cid b : Str) :
    emailListScript cid ≠ mutScript cid b := by
  intro h
  have h' : (idHeader ++ cid) ++ emailListTail =
      (idHeader ++ cid) ++ (S "\"" ++ (b ++ mutTail)) := by
    simpa [emailListScript, mutScript, List.append_assoc] using h
  have h2 : emailListTail = S "\"" ++ (b ++ mutTail) := List.append_cancel_left h'
  have hsuf : mutTail <:+ emailListTail := by
    rw [h2]
    exact ⟨S "\"" ++ b, by simp [List.append_assoc]⟩
  exact absurd hsuf (by decide)

theorem phoneListScript_ne_mutScript (cid b : Str) :
    phoneListScript cid ≠ mutScript cid b := by
  intro h
  have h' : (idHeader ++ cid) ++ phoneListTail =
      (idHeader ++ cid) ++ (S "\"" ++ (b ++ mutTail)) := by
    simpa [phoneListScript, mutScript, List.append_assoc] using h
  have h2 : phoneListTail = S "\"" ++ (b ++ mutTail) := List.append_cancel_left h'
  have hsuf : mutTail <:+ phoneListTail := by
    rw [h2]
    exact ⟨S "\"" ++ b, by simp [List.append_assoc]⟩
  exact absurd hsuf (by decide)

theorem urlListScript_ne_mutScript (cid b : Str) :
    urlListScript cid ≠ mutScript cid b := by
  intro h
  have h' : (idHeader ++ cid) ++ urlListTail =
      (idHeader ++ cid) ++ (S "\"" ++ (b ++ mutTail)) := by
    simpa [urlListScript, mutScript, List.append_assoc] using h
  have h2 : urlListTail = S "\"" ++ (b ++ mutTail) := List.append_cancel_left h'
  have hsuf : mutTail <:+ urlListTail := by
    rw [h2]
    exact ⟨S "\"" ++ b, by simp [List.append_assoc]⟩
  exact absurd hsuf (by decide)

theorem nameBody_at3 (raw : Str) : (nameBody raw)[3]? = some 's' := by
  simp only [nameBody, List.append_assoc]
  rw [getElem_pre _ (by decide)]
  decide

theorem orgBody_at3 (v : Str) : (orgBody v)[3]? = some 's' := by
  simp only [orgBody, List.append_assoc]
  rw [getElem_pre _ (by decide)]
  decide

theorem jobBody_at3 (v : Str) : (jobBody v)[3]? = some 's' := by
  simp only [jobBody, List.append_assoc]
  rw [getElem_pre _ (by decide)]
  decide

theorem noteBody_at3 (v : Str) : (noteBody v)[3]? = some 's' := by
  simp only [noteBody, List.append_assoc]
  rw [getElem_pre _ (by decide)]
  decide

theorem addUrlBody_cons (x : Str × Str) (xs : List (Str × Str)) :
    addUrlBody (x :: xs) = urlLineUpd x ++ (xs.map urlLineUpd).flatten := by
  simp [addUrlBody, foldl_append_lines]

theorem addEmailBody_cons (x : Str) (xs : List Str) :
    addEmailBody (x :: xs) =
      emailLineUpd 0 x ++ ((xs.enumFrom 1).map (fun p => emailLineUpd p.1 p.2)).flatten := by
  simp [addEmailBody, foldl_append_lines, List.enum_cons]

theorem addPhoneBody_cons (x : Str) (xs : List Str) :
    addPhoneBody (x :: xs) =
      phoneLineUpd 0 x ++ ((xs.enumFrom 1).map (fun p => phoneLineUpd p.1 p.2)).flatten := by
  simp [addPhoneBody, foldl_append_lines, List.enum_cons]

theorem addUrlBody_at3 (x : Str × Str) (xs : List (Str × Str)) :
    (addUrlBody (x :: xs))[3]? = some 'm' := by
  rw [addUrlBody_cons]
  simp only [urlLineUpd, List.append_assoc]
  rw [getElem_pre _ (by decide)]
  decide

theorem addUrlBody_at12 (x : Str × Str) (xs : List (Str × Str)) :
    (addUrlBody (x :: xs))[12]? = some 'u' := by
  rw [addUrlBody_cons]
  simp only [urlLineUpd, List.append_assoc]
  rw [getElem_pre _ (by decide)]
  decide

theorem addEmailBody_at3 (x : Str) (xs : List Str) :
    (addEmailBody (x :: xs))[3]? = some 'm' := by
  rw [addEmailBody_cons]
  simp only [emailLineUpd, List.append_assoc]
  rw [getElem_pre _ (by decide)]
  decide

theorem addEmailBody_at12 (x : Str) (xs : List Str) :
    (addEmailBody (x :: xs))[12]? = some 'e' := by
  rw [addEmailBody_cons]
  simp only [emailLineUpd, List.append_assoc]
  rw [getElem_pre _ (by decide)]
  decide

theorem addPhoneBody_at3 (x : Str) (xs : List Str) :
    (addPhoneBody (x :: xs))[3]? = some 'm' := by
  rw [addPhoneBody_cons]
  simp only [phoneLineUpd, List.append_assoc]
  rw [getElem_pre _ (by decide)]
  decide

theorem addPhoneBody_at12 (x : Str) (xs : List Str) :
    (addPhoneBody (x :: xs))[12]? = some 'p' := by
  rw [addPhoneBody_cons]
  simp only [phoneLineUpd, List.append_assoc]
  rw [getElem_pre _ (by decide)]
  decide

theorem scalar_ne_emailMut {a : Str} (ha : a[3]? = some 's') :
    a ≠ clearEmailBody ∧ ∀ l', a ≠ addEmailBody l' := by
  refine ⟨ne_of_at 3 (by rw [ha]; decide), ?_⟩
  intro l'
  cases l' with
  | nil => exact ne_of_at 3 (by rw [ha]; decide)
  | cons x xs => exact ne_of_at 3 (by rw [ha, addEmailBody_at3]; decide)

theorem clear_ne_emailMut {a : Str} (ha3 : a[3]? = some 'd') (ha16 : a[16]? ≠ some 'e') :
    a ≠ clearEmailBody ∧ ∀ l', a ≠ addEmailBody l' := by
  constructor
  · refine ne_of_at 16 ?_
    intro hh
    apply ha16
    rw [hh]; decide
  · intro l'
    cases l' with
    | nil => exact ne_of_at 3 (by rw [ha3]; decide)
    | cons x xs => exact ne_of_at 3 (by rw [ha3, addEmailBody_at3]; decide)

theorem add_ne_emailMut {a : Str} (ha3 : a[3]? = some 'm') (ha12 : a[12]? ≠ some 'e') :
    a ≠ clearEmailBody ∧ ∀ l', a ≠ addEmailBody l' := by
  refine ⟨ne_of_at 3 (by rw [ha3]; decide), ?_⟩
  intro l'
  cases l' with
  | nil => exact ne_of_at 3 (by rw [ha3]; decide)
  | cons x xs =>
    refine ne_of_at 12 ?_
    intro hh
    apply ha12
    rw [hh, addEmailBody_at12]

theorem scalar_ne_phoneMut {a : Str} (ha : a[3]? = some 's') :
    a ≠ clearPhoneBody ∧ ∀ l', a ≠ addPhoneBody l' := by
  refine ⟨ne_of_at 3 (by rw [ha]; decide), ?_⟩
  intro l'
  cases l' with
  | nil => exact ne_of_at 3 (by rw [ha]; decide)
  | cons x xs => exact ne_of_at 3 (by rw [ha, addPhoneBody_at3]; decide)

theorem clear_ne_phoneMut {a : Str} (ha3 : a[3]? = some 'd') (ha16 : a[16]? ≠ some 'p') :
    a ≠ clearPhoneBody ∧ ∀ l', a ≠ addPhoneBody l' := by
  constructor
  · refine ne_of_at 16 ?_
    intro hh
    apply ha16
    rw [hh]; decide
  · intro l'
    cases l' with
    | nil => exact ne_of_at 3 (by rw [ha3]; decide)
    | cons x xs => exact ne_of_at 3 (by rw [ha3, addPhoneBody_at3]; decide)

theorem add_ne_phoneMut {a : Str} (ha3 : a[3]? = some 'm') (ha12 : a[12]? ≠ some 'p') :
    a ≠ clearPhoneBody ∧ ∀ l', a ≠ addPhoneBody l' := by
  refine ⟨ne_of_at 3 (by rw [ha3]; decide), ?_⟩
  intro l'
  cases l' with
  | nil => exact ne_of_at 3 (by rw [ha3]; decide)
  | cons x xs =>
    refine ne_of_at 12 ?_
    intro hh
    apply ha12
    rw [hh, addPhoneBody_at12]

theorem scalar_ne_urlMut {a : Str} (ha : a[3]? = some 's') :
    a ≠ clearUrlBody ∧ ∀ l' : List (Str × Str), a ≠ addUrlBody l' := by
  refine ⟨ne_of_at 3 (by rw [ha]; decide), ?_⟩
  intro l'
  cases l' with
  | nil => exact ne_of_at 3 (by rw [ha]; decide)
  | cons x xs => exact ne_of_at 3 (by rw [ha, addUrlBody_at3]; decide)

theorem clear_ne_urlMut {a : Str} (ha3 : a[3]? = some 'd') (ha16 : a[16]? ≠ some 'u') :
    a ≠ clearUrlBody ∧ ∀ l' : List (Str × Str), a ≠ addUrlBody l' := by
  constructor
  · refine ne_of_at 16 ?_
    intro hh
    apply ha16
    rw [hh]; decide
  · intro l'
    cases l' with
    | nil => exact ne_of_at 3 (by rw [ha3]; decide)
    | cons x xs => exact ne_of_at 3 (by rw [ha3, addUrlBody_at3]; decide)

theorem add_ne_urlMut {a : Str} (ha3 : a[3]? = some 'm') (ha12 : a[12]? ≠ some 'u') :
    a ≠ clearUrlBody ∧ ∀ l' : List (Str × Str), a ≠ addUrlBody l' := by
  refine ⟨ne_of_at 3 (by rw [ha3]; decide), ?_⟩
  intro l'
  cases l' with
  | nil => exact ne_of_at 3 (by rw [ha3]; decide)
  | cons x xs =>
    refine ne_of_at 12 ?_
    intro hh
    apply ha12
    rw [hh, addUrlBody_at12]

theorem updateContact_no_emailMut (exec : Exec) (identifier : Str) (u : Updates)
    (c : ContactOut)
    (h : (getContact exec identifier).1 = Except.ok (FetchResult.found c))
    (hnone : u.emails = none) :
    ∀ s ∈ (updateContact exec identifier u).2,
      s ≠ clearEmailScript c.id ∧ ∀ l', s ≠ addEmailScript c.id l' := by
  intro s hs
  rw [updateContact_found exec identifier u c h] at hs
  simp only [List.mem_append] at hs
  rcases hs with ((((((hG | h1) | h2) | h3) | h4) | h5) | h6) | h7
  · rw [getContact_found_trace exec identifier c h] at hG
    simp only [List.mem_cons, List.not_mem_nil, or_false] at hG
    rcases hG with rfl | rfl | rfl | rfl
    · exact ⟨fetchScript_ne_mutScript _ _ _, fun l' => fetchScript_ne_mutScript _ _ _⟩
    · exact ⟨emailListScript_ne_mutScript _ _, fun l' => emailListScript_ne_mutScript _ _⟩
    · exact ⟨phoneListScript_ne_mutScript _ _, fun l' => phoneListScript_ne_mutScript _ _⟩
    · exact ⟨urlListScript_ne_mutScript _ _, fun l' => urlListScript_ne_mutScript _ _⟩
  · obtain ⟨v, hv, hsv⟩ := optStep_snd_mem _ _ _ _ _ h1
    simp only [List.mem_singleton] at hsv
    subst hsv
    have hd := scalar_ne_emailMut (nameBody_at3 v)
    exact ⟨mutScript_ne_of_body_ne hd.1, fun l' => mutScript_ne_of_body_ne (hd.2 l')⟩
  · obtain ⟨v, hv, hsv⟩ := optStep_snd_mem _ _ _ _ _ h2
    simp only [List.mem_singleton] at hsv
    subst hsv
    have hd := scalar_ne_emailMut (orgBody_at3 v)
    exact ⟨mutScript_ne_of_body_ne hd.1, fun l' => mutScript_ne_of_body_ne (hd.2 l')⟩
  · obtain ⟨v, hv, hsv⟩ := optStep_snd_mem _ _ _ _ _ h3
    simp only [List.mem_singleton] at hsv
    subst hsv
    have hd := scalar_ne_emailMut (jobBody_at3 v)
    exact ⟨mutScript_ne_of_body_ne hd.1, fun l' => mutScript_ne_of_body_ne (hd.2 l')⟩
  · obtain ⟨v, hv, hsv⟩ := optStep_snd_mem _ _ _ _ _ h4
    simp only [List.mem_singleton] at hsv
    subst hsv
    have hd := scalar_ne_emailMut (noteBody_at3 v)
    exact ⟨mutScript_ne_of_body_ne hd.1, fun l' => mutScript_ne_of_body_ne (hd.2 l')⟩
  · obtain ⟨l, hl, hsl⟩ := optStep_snd_mem _ _ _ _ _ h5
    rcases List.mem_cons.mp hsl with rfl | hsl'
    · have hd := clear_ne_emailMut (a := clearUrlBody) (by decide) (by decide)
      exact ⟨mutScript_ne_of_body_ne hd.1, fun l' => mutScript_ne_of_body_ne (hd.2 l')⟩
    · by_cases hlen : 0 < l.length
      · rw [if_pos hlen] at hsl'
        simp only [List.mem_singleton] at hsl'
        subst hsl'
        cases l with
        | nil => simp at hlen
        | cons x xs =>
          have hd := add_ne_emailMut (addUrlBody_at3 x xs) (by rw [addUrlBody_at12]; decide)
          exact ⟨mutScript_ne_of_body_ne hd.1, fun l' => mutScript_ne_of_body_ne (hd.2 l')⟩
      · rw [if_neg hlen] at hsl'
        simp at hsl'
  · rw [hnone] at h6
    simp [optStep] at h6
  · obtain ⟨l, hl, hsl⟩ := optStep_snd_mem _ _ _ _ _ h7
    rcases List.mem_cons.mp hsl with rfl | hsl'
    · have hd := clear_ne_emailMut (a := clearPhoneBody) (by decide) (by decide)
      exact ⟨mutScript_ne_of_body_ne hd.1, fun l' => mutScript_ne_of_body_ne (hd.2 l')⟩
    · by_cases hlen : 0 < l.length
      · rw [if_pos hlen] at hsl'
        simp only [List.mem_singleton] at hsl'
        subst hsl'
        cases l with
        | nil => simp at hlen
        | cons x xs =>
          have hd := add_ne_emailMut (addPhoneBody_at3 x xs) (by rw [addPhoneBody_at12]; decide)
          exact ⟨mutScript_ne_of_body_ne hd.1, fun l' => mutScript_ne_of_body_ne (hd.2 l')⟩
      · rw [if_neg hlen] at hsl'
        simp at hsl'

theorem updateContact_no_phoneMut (exec : Exec) (identifier : Str) (u : Updates)
    (c : ContactOut)
    (h : (getContact exec identifier).1 = Except.ok (FetchResult.found c))
    (hnone : u.phones = none) :
    ∀ s ∈ (updateContact exec identifier u).2,
      s ≠ clearPhoneScript c.id ∧ ∀ l', s ≠ addPhoneScript c.id l' := by
  intro s hs
  rw [updateContact_found exec identifier u c h] at hs
  simp only [List.mem_append] at hs
  rcases hs with ((((((hG | h1) | h2) | h3) | h4) | h5) | h6) | h7
  · rw [getContact_found_trace exec identifier c h] at hG
    simp only [List.mem_cons, List.not_mem_nil, or_false] at hG
    rcases hG with rfl | rfl | rfl | rfl
    · exact ⟨fetchScript_ne_mutScript _ _ _, fun l' => fetchScript_ne_mutScript _ _ _⟩
    · exact ⟨emailListScript_ne_mutScript _ _, fun l' => emailListScript_ne_mutScript _ _⟩
    · exact ⟨phoneListScript_ne_mutScript _ _, fun l' => phoneListScript_ne_mutScript _ _⟩
    · exact ⟨urlListScript_ne_mutScript _ _, fun l' => urlListScript_ne_mutScript _ _⟩
  · obtain ⟨v, hv, hsv⟩ := optStep_snd_mem _ _ _ _ _ h1
    simp only [List.mem_singleton] at hsv
    subst hsv
    have hd := scalar_ne_phoneMut (nameBody_at3 v)
    exact ⟨mutScript_ne_of_body_ne hd.1, fun l' => mutScript_ne_of_body_ne (hd.2 l')⟩
  · obtain ⟨v, hv, hsv⟩ := optStep_snd_mem _ _ _ _ _ h2
    simp only [List.mem_singleton] at hsv
    subst hsv
    have hd := scalar_ne_phoneMut (orgBody_at3 v)
    exact ⟨mutScript_ne_of_body_ne hd.1, fun l' => mutScript_ne_of_body_ne (hd.2 l')⟩
  · obtain ⟨v, hv, hsv⟩ := optStep_snd_mem _ _ _ _ _ h3
    simp only [List.mem_singleton] at hsv
    subst hsv
    have hd := scalar_ne_phoneMut (jobBody_at3 v)
    exact ⟨mutScript_ne_of_body_ne hd.1, fun l' => mutScript_ne_of_body_ne (hd.2 l')⟩
  · obtain ⟨v, hv, hsv⟩ := optStep_snd_mem _ _ _ _ _ h4
    simp only [List.mem_singleton] at hsv
    subst hsv
    have hd := scalar_ne_phoneMut (noteBody_at3 v)
    exact ⟨mutScript_ne_of_body_ne hd.1, fun l' => mutScript_ne_of_body_ne (hd.2 l')⟩
  · obtain ⟨l, hl, hsl⟩ := optStep_snd_mem _ _ _ _ _ h5
    rcases List.mem_cons.mp hsl with rfl | hsl'
    · have hd := clear_ne_phoneMut (a := clearUrlBody) (by decide) (by decide)
      exact ⟨mutScript_ne_of_body_ne hd.1, fun l' => mutScript_ne_of_body_ne (hd.2 l')⟩
    · by_cases hlen : 0 < l.length
      · rw [if_pos hlen] at hsl'
        simp only [List.mem_singleton] at hsl'
        subst hsl'
        cases l with
        | nil => simp at hlen
        | cons x xs =>
          have hd := add_ne_phoneMut (addUrlBody_at3 x xs) (by rw [addUrlBody_at12]; decide)
          exact ⟨mutScript_ne_of_body_ne hd.1, fun l' => mutScript_ne_of_body_ne (hd.2 l')⟩
      · rw [if_neg hlen] at hsl'
        simp at hsl'
  · obtain ⟨l, hl, hsl⟩ := optStep_snd_mem _ _ _ _ _ h6
    rcases List.mem_cons.mp hsl with rfl | hsl'
    · have hd := clear_ne_phoneMut (a := clearEmailBody) (by decide) (by decide)
      exact ⟨mutScript_ne_of_body_ne hd.1, fun l' => mutScript_ne_of_body_ne (hd.2 l')⟩
    · by_cases hlen : 0 < l.length
      · rw [if_pos hlen] at hsl'
        simp only [List.mem_singleton] at hsl'
        subst hsl'
        cases l with
        | nil => simp at hlen
        | cons x xs =>
          have hd := add_ne_phoneMut (addEmailBody_at3 x xs) (by rw [addEmailBody_at12]; decide)
          exact ⟨mutScript_ne_of_body_ne hd.1, fun l' => mutScript_ne_of_body_ne (hd.2 l')⟩
      · rw [if_neg hlen] at hsl'
        simp at hsl'
  · rw [hnone] at h7
    simp [optStep] at h7

theorem updateContact_no_urlMut (exec : Exec) (identifier : Str) (u : Updates)
    (c : ContactOut)
    (h : (getContact exec identifier).1 = Except.ok (FetchResult.found c))
    (hnone : u.urls = none) :
    ∀ s ∈ (updateContact exec identifier u).2,
      s ≠ clearUrlScript c.id ∧ ∀ l' : List (Str × Str), s ≠ addUrlScript c.id l' := by
  intro s hs
  rw [updateContact_found exec identifier u c h] at hs
  simp only [List.mem_append] at hs
  rcases hs with ((((((hG | h1) | h2) | h3) | h4) | h5) | h6) | h7
  · rw [getContact_found_trace exec identifier c h] at hG
    simp only [List.mem_cons, List.not_mem_nil, or_false] at hG
    rcases hG with rfl | rfl | rfl | rfl
    · exact ⟨fetchScript_ne_mutScript _ _ _, fun l' => fetchScript_ne_mutScript _ _ _⟩
    · exact ⟨emailListScript_ne_mutScript _ _, fun l' => emailListScript_ne_mutScript _ _⟩
    · exact ⟨phoneListScript_ne_mutScript _ _, fun l' => phoneListScript_ne_mutScript _ _⟩
    · exact ⟨urlListScript_ne_mutScript _ _, fun l' => urlListScript_ne_mutScript _ _⟩
  · obtain ⟨v, hv, hsv⟩ := optStep_snd_mem _ _ _ _ _ h1
    simp only [List.mem_singleton] at hsv
    subst hsv
    have hd := scalar_ne_urlMut (nameBody_at3 v)
    exact ⟨mutScript_ne_of_body_ne hd.1, fun l' => mutScript_ne_of_body_ne (hd.2 l')⟩
  · obtain ⟨v, hv, hsv⟩ := optStep_snd_mem _ _ _ _ _ h2
    simp only [List.mem_singleton] at hsv
    subst hsv
    have hd := scalar_ne_urlMut (orgBody_at3 v)
    exact ⟨mutScript_ne_of_body_ne hd.1, fun l' => mutScript_ne_of_body_ne (hd.2 l')⟩
  · obtain ⟨v, hv, hsv⟩ := optStep_snd_mem _ _ _ _ _ h3
    simp only [List.mem_singleton] at hsv
    subst hsv
    have hd := scalar_ne_urlMut (jobBody_at3 v)
    exact ⟨mutScript_ne_of_body_ne hd.1, fun l' => mutScript_ne_of_body_ne (hd.2 l')⟩
  · obtain ⟨v, hv, hsv⟩ := optStep_snd_mem _ _ _ _ _ h4
    simp only [List.mem_singleton] at hsv
    subst hsv
    have hd := scalar_ne_urlMut (noteBody_at3 v)
    exact ⟨mutScript_ne_of_body_ne hd.1, fun l' => mutScript_ne_of_body_ne (hd.2 l')⟩
  · rw [hnone] at h5
    simp [optStep] at h5
  · obtain ⟨l, hl, hsl⟩ := optStep_snd_mem _ _ _ _ _ h6
    rcases List.mem_cons.mp hsl with rfl | hsl'
    · have hd := clear_ne_urlMut (a := clearEmailBody) (by decide) (by decide)
      exact ⟨mutScript_ne_of_body_ne hd.1, fun l' => mutScript_ne_of_body_ne (hd.2 l')⟩
    · by_cases hlen : 0 < l.length
      · rw [if_pos hlen] at hsl'
        simp only [List.mem_singleton] at hsl'
        subst hsl'
        cases l with
        | nil => simp at hlen
        | cons x xs =>
          have hd := add_ne_urlMut (addEmailBody_at3 x xs) (by rw [addEmailBody_at12]; decide)
          exact ⟨mutScript_ne_of_body_ne hd.1, fun l' => mutScript_ne_of_body_ne (hd.2 l')⟩
      · rw [if_neg hlen] at hsl'
        simp at hsl'
  · obtain ⟨l, hl, hsl⟩ := optStep_snd_mem _ _ _ _ _ h7
    rcases List.mem_cons.mp hsl with rfl | hsl'
    · have hd := clear_ne_urlMut (a := clearPhoneBody) (by decide) (by decide)
      exact ⟨mutScript_ne_of_body_ne hd.1, fun l' => mutScript_ne_of_body_ne (hd.2 l')⟩
    · by_cases hlen : 0 < l.length
      · rw [if_pos hlen] at hsl'
        simp only [List.mem_singleton] at hsl'
        subst hsl'
        cases l with
        | nil => simp at hlen
        | cons x xs =>
          have hd := add_ne_urlMut (addPhoneBody_at3 x xs) (by rw [addPhoneBody_at12]; decide)
          exact ⟨mutScript_ne_of_body_ne hd.1, fun l' => mutScript_ne_of_body_ne (hd.2 l')⟩
      · rw [if_neg hlen] at hsl'
        simp at hsl'

theorem runSeq_trace_cons (exec : Exec) (cs : Str) (rest : List Str) :
    (runSeq exec (cs :: rest)).2 =
      cs :: (if exec cs = none then [] else (runSeq exec rest).2) := by
  cases hc : exec cs <;> simp [runSeq, hc]

theorem runSeq_trace_single (exec : Exec) (a : Str) : (runSeq exec [a]).2 = [a] := by
  cases hc : exec a <;> simp [runSeq, hc]

theorem emailFieldTrace (exec : Exec) (cid : Str) (l : List Str) :
    (runSeq exec (emailScripts cid l)).2 =
      clearEmailScript cid ::
        (if exec (clearEmailScript cid) = none then []
         else if 0 < l.length then [addEmailScript cid l] else []) := by
  rw [emailScripts, runSeq_trace_cons]
  by_cases hc : exec (clearEmailScript cid) = none
  · simp [hc]
  · simp only [if_neg hc]
    by_cases hl : 0 < l.length
    · simp [hl, runSeq_trace_single]
    · simp [hl, runSeq]

theorem phoneFieldTrace (exec : Exec) (cid : Str) (l : List Str) :
    (runSeq exec (phoneScripts cid l)).2 =
      clearPhoneScript cid ::
        (if exec (clearPhoneScript cid) = none then []
         else if 0 < l.length then [addPhoneScript cid l] else []) := by
  rw [phoneScripts, runSeq_trace_cons]
  by_cases hc : exec (clearPhoneScript cid) = none
  · simp [hc]
  · simp only [if_neg hc]
    by_cases hl : 0 < l.length
    · simp [hl, runSeq_trace_single]
    · simp [hl, runSeq]

theorem urlFieldTrace (exec : Exec) (cid : Str) (l : List (Str × Str)) :
    (runSeq exec (urlScripts cid l)).2 =
      clearUrlScript cid ::
        (if exec (clearUrlScript cid) = none then []
         else if 0 < l.length then [addUrlScript cid l] else []) := by
  rw [urlScripts, runSeq_trace_cons]
  by_cases hc : exec (clearUrlScript cid) = none
  · simp [hc]
  · simp only [if_neg hc]
    by_cases hl : 0 < l.length
    · simp [hl, runSeq_trace_single]
    · simp [hl, runSeq]

/-- C5: whenever the identifier resolves via fetch: for each collection
field (`emails`, `phones`, `urls`) supplied in the request, the executor
trace contains — in order — the script deleting every existing entry of
that collection, followed (when the delete script ran successfully and the
supplied list is non-empty) by the single script inserting exactly the
supplied list in its given order (the add script's body is the
concatenation of one `make new` line per entry, in list order); and for
each collection field omitted from the request, no script run by the
operation is a mutation script for that collection — its existing value is
left untouched. -/
theorem updateContact_collections_replace (exec : Exec) (identifier : Str) (u : Updates)
    (c : ContactOut)
    (h : (getContact exec identifier).1 = Except.ok (FetchResult.found c)) :
    ∃ r tr, updateContact exec identifier u = (Except.ok r, tr) ∧
      (∀ l, u.emails = some l →
        List.Sublist
          (clearEmailScript c.id ::
            (if exec (clearEmailScript c.id) = none then []
             else if 0 < l.length then [addEmailScript c.id l] else [])) tr ∧
        addEmailBody l = ((l.enum).map (fun p => emailLineUpd p.1 p.2)).flatten ∧
        List.IsInfix (S "delete every email of targetPerson") (clearEmailScript c.id)) ∧
      (u.emails = none →
        ∀ s ∈ tr, s ≠ clearEmailScript c.id ∧ ∀ l', s ≠ addEmailScript c.id l') ∧
      (∀ l, u.phones = some l →
        List.Sublist
          (clearPhoneScript c.id ::
            (if exec (clearPhoneScript c.id) = none then []
             else if 0 < l.length then [addPhoneScript c.id l] else [])) tr ∧
        addPhoneBody l = ((l.enum).map (fun p => phoneLineUpd p.1 p.2)).flatten ∧
        List.IsInfix (S "delete every phone of targetPerson") (clearPhoneScript c.id)) ∧
      (u.phones = none →
        ∀ s ∈ tr, s ≠ clearPhoneScript c.id ∧ ∀ l', s ≠ addPhoneScript c.id l') ∧
      (∀ l, u.urls = some l →
        List.Sublist
          (clearUrlScript c.id ::
            (if exec (clearUrlScript c.id) = none then []
             else if 0 < l.length then [addUrlScript c.id l] else [])) tr ∧
        addUrlBody l = (l.map urlLineUpd).flatten ∧
        List.IsInfix (S "delete every url of targetPerson") (clearUrlScript c.id)) ∧
      (u.urls = none →
        ∀ s ∈ tr, s ≠ clearUrlScript c.id ∧
          ∀ l' : List (Str × Str), s ≠ addUrlScript c.id l') := by
  refine ⟨_, _, updateContact_found exec identifier u c h, ?_, ?_, ?_, ?_, ?_, ?_⟩
  · intro l hl
    refine ⟨?_, by simp [addEmailBody, foldl_append_lines], ?_⟩
    · have ht : (optStep exec (S "emails") (emailScripts c.id) u.emails).2 =
          clearEmailScript c.id ::
            (if exec (clearEmailScript c.id) = none then []
             else if 0 < l.length then [addEmailScript c.id l] else []) := by
        rw [hl]
        simp only [optStep]
        exact emailFieldTrace exec c.id l
      rw [← ht]
      exact (List.sublist_append_right _ _).trans (List.sublist_append_left _ _)
    · refine List.IsInfix.trans
        (show List.IsInfix (S "delete every email of targetPerson") clearEmailBody by decide) ?_
      exact ⟨(idHeader ++ c.id) ++ S "\"", mutTail, by simp [clearEmailScript, mutScript, List.append_assoc]⟩
  · intro hn s hs
    exact updateContact_no_emailMut exec identifier u c h hn s
      (by rw [updateContact_found exec identifier u c h]; exact hs)
  · intro l hl
    refine ⟨?_, by simp [addPhoneBody, foldl_append_lines], ?_⟩
    · have ht : (optStep exec (S "phones") (phoneScripts c.id) u.phones).2 =
          clearPhoneScript c.id ::
            (if exec (clearPhoneScript c.id) = none then []
             else if 0 < l.length then [addPhoneScript c.id l] else []) := by
        rw [hl]
        simp only [optStep]
        exact phoneFieldTrace exec c.id l
      rw [← ht]
      exact List.sublist_append_right _ _
    · refine List.IsInfix.trans
        (show List.IsInfix (S "delete every phone of targetPerson") clearPhoneBody by decide) ?_
      exact ⟨(idHeader ++ c.id) ++ S "\"", mutTail, by simp [clearPhoneScript, mutScript, List.append_assoc]⟩
  · intro hn s hs
    exact updateContact_no_phoneMut exec identifier u c h hn s
      (by rw [updateContact_found exec identifier u c h]; exact hs)
  · intro l hl
    refine ⟨?_, by simp [addUrlBody, foldl_append_lines], ?_⟩
    · have ht : (optStep exec (S "urls") (urlScripts c.id) u.urls).2 =
          clearUrlScript c.id ::
            (if exec (clearUrlScript c.id) = none then []
             else if 0 < l.length then [addUrlScript c.id l] else []) := by
        rw [hl]
        simp only [optStep]
        exact urlFieldTrace exec c.id l
      rw [← ht]
      exact ((List.sublist_append_right _ _).trans
        (List.sublist_append_left _ _)).trans (List.sublist_append_left _ _)
    · refine List.IsInfix.trans
        (show List.IsInfix (S "delete every url of targetPerson") clearUrlBody by decide) ?_
      exact ⟨(idHeader ++ c.id) ++ S "\"", mutTail, by simp [clearUrlScript, mutScript, List.append_assoc]⟩
  · intro hn s hs
    exact updateContact_no_urlMut exec identifier u c h hn s
      (by rw [updateContact_found exec identifier u c h]; exact hs)

set_option maxRecDepth 1000000 in
theorem updateContact_collections_replace_witness :
    ∃ r tr,
      updateContact
        (fun s => if s = fetchScript (S "Y-id") then some (S "pid|Bob|Org|JT|N") else some [])
        (S "Y-id") { emails := some [S "a@b.c"] } = (Except.ok r, tr) := by
  obtain ⟨r, tr, heq, -, -, -, -, -, -⟩ :=
    updateContact_collections_replace
      (fun s => if s = fetchScript (S "Y-id") then some (S "pid|Bob|Org|JT|N") else some [])
      (S "Y-id") { emails := some [S "a@b.c"] }
      { id := S "pid", name := S "Bob", organization := S "Org", job_title := S "JT",
        note := S "N", emails := [], phones := [], urls := [] }
      (by rfl)
  exact ⟨r, tr, heq⟩
